import Mathlib

/-!
Verification of the role-record extractor of `app.py` (Styrekandidat-screener).

The extractor (`parse_roles` together with `is_now_active`, `_join_name` and
`_role_to_text_and_code`) is embedded shallowly: JSON-like Python values become
the inductive type `JSON`, Python `dict.get` becomes `jget` (absent keys map to
`JSON.null`, i.e. Python `None`), Python truthiness becomes `jtruthy`, and code
paths on which the Python source raises an exception (attribute errors on
non-dict values, `str.upper` on non-strings, unhashable dedup keys, iterating a
non-list) are modelled with `Except String`.
-/

/-- A JSON-like value as deserialized by Python: `None`, `bool`, a number
(modelled as `Int`; no claim depends on float behaviour), `str`, `list`, or
`dict` (an association list in insertion order, keys assumed distinct). -/
inductive JSON where
  | null : JSON
  | bool : Bool → JSON
  | num : Int → JSON
  | str : String → JSON
  | arr : List JSON → JSON
  | obj : List (String × JSON) → JSON

/-- Python truthiness of a JSON-like value (`None`, `False`, `0`, `""`, `[]`
and `{}` are falsy). -/
def jtruthy : JSON → Bool
  | .null => false
  | .bool b => b
  | .num n => n != 0
  | .str s => !(s.isEmpty)
  | .arr xs => !xs.isEmpty
  | .obj fs => !fs.isEmpty

/-- Python `d.get(key)`: the stored value, or `None` when the key is absent.
A stored JSON `null` also arrives as Python `None`, so both map to
`JSON.null`. -/
def jget : List (String × JSON) → String → JSON
  | [], _ => .null
  | (k, v) :: rest, key => if k = key then v else jget rest key

/-- Python `key in d`: key presence (distinct from truthiness of the value). -/
def hasKey (fs : List (String × JSON)) (key : String) : Bool :=
  fs.any (fun kv => kv.1 == key)

/-- Python `a or b` on JSON-like values: `a` if truthy, else `b`. -/
def pyor (a b : JSON) : JSON := if jtruthy a then a else b

/-- Python `str.strip` on the character list (whitespace from both ends). -/
def stripChars (l : List Char) : List Char :=
  ((l.dropWhile Char.isWhitespace).reverse.dropWhile Char.isWhitespace).reverse

/-- Python `s.strip()`. -/
def pyStrip (s : String) : String := ⟨stripChars s.data⟩

/-- Python `s.upper()` (ASCII case mapping suffices for every claim). -/
def pyUpper (s : String) : String := ⟨s.data.map Char.toUpper⟩

/-- Whether a JSON-like value is a Python `str`. -/
def isStr : JSON → Bool
  | .str _ => true
  | _ => false

/-- The underlying string of a `JSON.str` (only applied under `isStr`). -/
def asStr : JSON → String
  | .str s => s
  | _ => ""

/-- Source `_join_name`: a string name is stripped; a dict name joins the
truthy ones among `fornavn`, `mellomnavn`, `etternavn` with single spaces and
strips the result (raising `TypeError`, modelled as `Except.error`, when a
truthy part is not a string); anything else yields Python `None`. -/
def join_name : JSON → Except String (Option String)
  | .str s => .ok (some (pyStrip s))
  | .obj fs =>
      let parts := [jget fs "fornavn", jget fs "mellomnavn", jget fs "etternavn"]
      let kept := parts.filter jtruthy
      if kept.all isStr then
        .ok (some (pyStrip (" ".intercalate (kept.map asStr))))
      else .error "TypeError: sequence item: expected str instance"
  | _ => .ok none

/-- Source `_role_to_text_and_code`: resolve the raw role value
(`rolle` / `type` / `rolletype` fallback chain) into `(tekst, kode)`. -/
def role_to_text_and_code (r : List (String × JSON)) : JSON × JSON :=
  let raw := pyor (jget r "rolle") (pyor (jget r "type") (jget r "rolletype"))
  match raw with
  | .str s => (.str s, .str s)
  | .obj d => (pyor (jget d "beskrivelse") (pyor (jget d "kode") (.str "")),
               pyor (jget d "kode") (.str ""))
  | _ => (.str "", .str "")

/-- The name candidate `(r.get("person") or {}).get("navn")` from the source's
`add_from_r`: a truthy non-dict `person` value raises `AttributeError`. -/
def personNavn (r : List (String × JSON)) : Except String JSON :=
  let person := jget r "person"
  if jtruthy person then
    match person with
    | .obj pf => .ok (jget pf "navn")
    | _ => .error "AttributeError: object has no attribute get"
  else .ok .null

/-- One output row of `parse_roles` (the dict appended to `rows`). -/
structure RoleRecord where
  navn : String
  rolle_tekst : String
  rolle_kode : String
  fradato : JSON
  tildato : JSON
  fratraadt : JSON

/-- Source `add_from_r`: build a candidate record from one object, or `none`
when the candidate is rejected; `Except.error` on the paths where Python
raises (`.get` on a non-dict, `.upper()` on a non-string). -/
def add_from_r (j : JSON) : Except String (Option RoleRecord) :=
  match j with
  | .obj r =>
    match personNavn r with
    | .error e => .error e
    | .ok base =>
      match join_name (pyor base (jget r "navn")) with
      | .error e => .error e
      | .ok nopt =>
        let tk := role_to_text_and_code r
        let fradato := pyor (jget r "fradato") (jget r "registrertDato")
        let tildato := pyor (jget r "tildato") (jget r "avregistrertDato")
        let fratraadt := jget r "fratraadt"
        match nopt with
        | some n =>
          if n ≠ "" ∧ (jtruthy tk.1 = true ∨ jtruthy tk.2 = true) then
            match pyor tk.1 tk.2, pyor tk.2 tk.1 with
            | .str t, .str k =>
                .ok (some ⟨n, pyUpper t, pyUpper k, fradato, tildato, fratraadt⟩)
            | _, _ => .error "AttributeError: object has no attribute upper"
          else .ok none
        | none => .ok none
  | _ => .error "AttributeError: object has no attribute get"

/-- Apply `add_from_r` to each element of an iterated list, collecting the
accepted records in iteration order. -/
def addList : List JSON → Except String (List RoleRecord)
  | [] => .ok []
  | r :: rest =>
    match add_from_r r with
    | .error e => .error e
    | .ok o =>
      match addList rest with
      | .error e => .error e
      | .ok t => .ok (match o with | some rec => rec :: t | none => t)

/-- The inner loop of the structured pass: `for r in g.get("roller") or []`.
A truthy non-list `roller` value raises in Python (either not iterable, or its
iteration yields non-dicts on which `.get` fails). -/
def rollerOf (g : JSON) : Except String (List RoleRecord) :=
  match g with
  | .obj gf =>
    let roller := jget gf "roller"
    if jtruthy roller then
      match roller with
      | .arr rs => addList rs
      | _ => .error "TypeError: roller is not a list"
    else .ok []
  | _ => .error "AttributeError: object has no attribute get"

/-- Iterate the role groups of the structured pass. -/
def groupsLoop : List JSON → Except String (List RoleRecord)
  | [] => .ok []
  | g :: rest =>
    match rollerOf g with
    | .error e => .error e
    | .ok a =>
      match groupsLoop rest with
      | .error e => .error e
      | .ok b => .ok (a ++ b)

/-- Pass 1 of `parse_roles`: the explicit `rollegrupper` container (only on a
dict payload that has the key; a truthy non-list value raises in Python). -/
def step1 (payload : JSON) : Except String (List RoleRecord) :=
  match payload with
  | .obj fs =>
    if hasKey fs "rollegrupper" then
      let v := jget fs "rollegrupper"
      if jtruthy v then
        match v with
        | .arr gs => groupsLoop gs
        | _ => .error "TypeError: rollegrupper is not a list"
      else .ok []
    else .ok []
  | _ => .ok []

/-- The fixed set of role-ish keys scanned by the source's `walk`. -/
def roleishKeys : List String :=
  ["historikk", "historiskeRoller", "tidligereRoller", "roller", "rolle", "rolletype", "type"]

/-- The object-level candidate step of the source's `walk`: when any role-ish
key is present in the dict, attempt `add_from_r` on the dict itself. -/
def walkSelf (fs : List (String × JSON)) : Except String (List RoleRecord) :=
  if roleishKeys.any (fun k => hasKey fs k) then
    match add_from_r (.obj fs) with
    | .error e => .error e
    | .ok (some rec) => .ok [rec]
    | .ok none => .ok []
  else .ok []

mutual
/-- Pass 2 of `parse_roles`: recursive scan of the whole payload; a dict
holding any role-ish key becomes a candidate, then traversal descends into all
dict- and list-valued children. -/
def walk : JSON → Except String (List RoleRecord)
  | .obj fs =>
    match walkSelf fs with
    | .error e => .error e
    | .ok first =>
      match walkFields fs with
      | .error e => .error e
      | .ok rest => .ok (first ++ rest)
  | .arr xs => walkElems xs
  | _ => .ok []

/-- Descend into the values of a dict (only dict/list children recurse). -/
def walkFields : List (String × JSON) → Except String (List RoleRecord)
  | [] => .ok []
  | (_, v) :: rest =>
    match (match v with
           | .obj _ => walk v
           | .arr _ => walk v
           | _ => .ok []) with
    | .error e => .error e
    | .ok a =>
      match walkFields rest with
      | .error e => .error e
      | .ok b => .ok (a ++ b)

/-- Descend into the elements of a list (only dict/list elements recurse). -/
def walkElems : List JSON → Except String (List RoleRecord)
  | [] => .ok []
  | v :: rest =>
    match (match v with
           | .obj _ => walk v
           | .arr _ => walk v
           | _ => .ok []) with
    | .error e => .error e
    | .ok a =>
      match walkElems rest with
      | .error e => .error e
      | .ok b => .ok (a ++ b)
end

/-- All candidate rows of `parse_roles` before deduplication: the structured
pass followed by the recursive walk, in append order. -/
def collectRows (payload : JSON) : Except String (List RoleRecord) :=
  match step1 payload with
  | .error e => .error e
  | .ok a =>
    match walk payload with
    | .error e => .error e
    | .ok b => .ok (a ++ b)

/-- A hashable Python value, as allowed in the dedup key tuple; Python raises
`TypeError: unhashable type` on lists and dicts. -/
inductive HKey where
  | null : HKey
  | bool : Bool → HKey
  | num : Int → HKey
  | str : String → HKey
deriving Repr, DecidableEq

/-- Hash a date field for the dedup key; lists and dicts are unhashable. -/
def toHKey : JSON → Except String HKey
  | .null => .ok .null
  | .bool b => .ok (.bool b)
  | .num n => .ok (.num n)
  | .str s => .ok (.str s)
  | .arr _ => .error "TypeError: unhashable type"
  | .obj _ => .error "TypeError: unhashable type"

/-- Python `==` on hashable values (`True == 1` and `False == 0` hold). -/
def hkeyEq : HKey → HKey → Bool
  | .null, .null => true
  | .bool a, .bool b => a == b
  | .num a, .num b => a == b
  | .str a, .str b => a == b
  | .bool a, .num n => (if a then (1 : Int) else 0) == n
  | .num n, .bool a => n == (if a then (1 : Int) else 0)
  | _, _ => false

/-- The dedup key `(navn, rolle_kode, fradato, tildato)` of the source. -/
abbrev RKey := String × String × HKey × HKey

/-- Python tuple `==` on dedup keys. -/
def keyEq (a b : RKey) : Bool :=
  a.1 == b.1 && a.2.1 == b.2.1 && hkeyEq a.2.2.1 b.2.2.1 && hkeyEq a.2.2.2 b.2.2.2

/-- The dedup key of a record; fails where Python's `hash` fails. -/
def recKey (r : RoleRecord) : Except String RKey :=
  match toHKey r.fradato with
  | .error e => .error e
  | .ok f =>
    match toHKey r.tildato with
    | .error e => .error e
    | .ok t => .ok (r.navn, r.rolle_kode, f, t)

/-- The dedup loop of `parse_roles`: keep a row when its key is not in `seen`,
recording kept keys. -/
def dedupAux (seen : List RKey) : List RoleRecord → Except String (List RoleRecord)
  | [] => .ok []
  | r :: rest =>
    match recKey r with
    | .error e => .error e
    | .ok k =>
      if seen.any (fun k2 => keyEq k k2) then dedupAux seen rest
      else
        match dedupAux (k :: seen) rest with
        | .error e => .error e
        | .ok t => .ok (r :: t)

/-- Source `parse_roles`: scalar payloads yield no rows; otherwise collect the
structured pass and the recursive walk, then deduplicate. -/
def parse_roles (payload : JSON) : Except String (List RoleRecord) :=
  match payload with
  | .obj _ | .arr _ =>
    match collectRows payload with
    | .error e => .error e
    | .ok rows => dedupAux [] rows
  | _ => .ok []

/-- Python `tildato in (None, "")`. -/
def eqNoneOrEmpty (j : JSON) : Bool :=
  match j with
  | .null => true
  | .str s => s.isEmpty
  | _ => false

/-- Python `fratraadt in (None, False)` (note `0 == False` in Python). -/
def eqNoneOrFalse (j : JSON) : Bool :=
  match j with
  | .null => true
  | .bool b => !b
  | .num n => n == 0
  | _ => false

/-- Source `is_now_active`: no `tildato` and not `fratraadt`. -/
def is_now_active (r : RoleRecord) : Bool :=
  eqNoneOrEmpty r.tildato && eqNoneOrFalse r.fratraadt

/-! ### String lemmas -/

theorem stripChars_eq_nil_iff (l : List Char) :
    stripChars l = [] ↔ ∀ c ∈ l, c.isWhitespace = true := by
  unfold stripChars
  rw [List.reverse_eq_nil_iff, List.dropWhile_eq_nil_iff]
  constructor
  · intro h c hc
    have hsplit := List.takeWhile_append_dropWhile (p := Char.isWhitespace) (l := l)
    rw [← hsplit] at hc
    rcases List.mem_append.mp hc with h1 | h1
    · exact List.mem_takeWhile_imp h1
    · exact h c (List.mem_reverse.mpr h1)
  · intro h c hc
    exact h c ((List.dropWhile_sublist _).subset (List.mem_reverse.mp hc))

theorem stripChars_has_nonws (l : List Char) (h : stripChars l ≠ []) :
    ∃ c ∈ stripChars l, c.isWhitespace = false := by
  have hne : List.dropWhile Char.isWhitespace
      ((List.dropWhile Char.isWhitespace l).reverse) ≠ [] := by
    intro hn
    apply h
    unfold stripChars
    rw [hn]
    rfl
  refine ⟨(List.dropWhile Char.isWhitespace
      ((List.dropWhile Char.isWhitespace l).reverse)).head hne, ?_, ?_⟩
  · show _ ∈ stripChars l
    unfold stripChars
    rw [List.mem_reverse]
    exact List.head_mem hne
  · exact List.head_dropWhile_not _ _ hne

theorem pyStrip_eq_empty_iff (s : String) :
    pyStrip s = "" ↔ ∀ c ∈ s.data, c.isWhitespace = true := by
  rw [String.ext_iff]
  show stripChars s.data = [] ↔ _
  exact stripChars_eq_nil_iff s.data

theorem pyStrip_stable_ne (y : String) (h : pyStrip y ≠ "") :
    pyStrip (pyStrip y) ≠ "" := by
  intro hc
  have hall := (pyStrip_eq_empty_iff _).mp hc
  have hne : stripChars y.data ≠ [] := by
    intro hn
    apply h
    rw [String.ext_iff]
    exact hn
  obtain ⟨c, hc1, hc2⟩ := stripChars_has_nonws y.data hne
  have hws : c.isWhitespace = true := hall c hc1
  rw [hc2] at hws
  exact Bool.false_ne_true hws

theorem pyUpper_ne_empty (s : String) (h : s ≠ "") : pyUpper s ≠ "" := by
  intro hc
  apply h
  rw [String.ext_iff] at hc ⊢
  exact List.map_eq_nil_iff.mp hc

/-! ### Shape lemmas about candidate construction -/

theorem join_name_shape (x : JSON) (n : String) (h : join_name x = .ok (some n)) :
    ∃ y, n = pyStrip y := by
  cases x with
  | str s =>
    simp only [join_name, Except.ok.injEq, Option.some.injEq] at h
    exact ⟨s, h.symm⟩
  | obj fs =>
    simp only [join_name] at h
    split at h
    · simp only [Except.ok.injEq, Option.some.injEq] at h
      exact ⟨_, h.symm⟩
    · exact absurd h (by simp)
  | null => simp [join_name] at h
  | bool b => simp [join_name] at h
  | num m => simp [join_name] at h
  | arr xs => simp [join_name] at h

/-- The emission invariant of `add_from_r`: name non-empty after stripping,
and at least one of role code / role text non-empty. -/
def GoodRec (r : RoleRecord) : Prop :=
  pyStrip r.navn ≠ "" ∧ (r.rolle_kode ≠ "" ∨ r.rolle_tekst ≠ "")

theorem jtruthy_str_ne (s : String) (h : jtruthy (.str s) = true) : s ≠ "" := by
  simp only [jtruthy, Bool.not_eq_true'] at h
  intro hc
  rw [hc] at h
  simp [String.isEmpty] at h

theorem add_from_r_good (j : JSON) (rec : RoleRecord)
    (h : add_from_r j = .ok (some rec)) : GoodRec rec := by
  cases j with
  | obj r =>
    simp only [add_from_r] at h
    split at h
    · exact absurd h (by simp)
    · rename_i base hp
      split at h
      · exact absurd h (by simp)
      · rename_i nopt hj
        split at h
        · rename_i n
          split at h
          · rename_i hguard
            split at h
            · rename_i t k htk hkt
              simp only [Except.ok.injEq, Option.some.injEq] at h
              subst h
              obtain ⟨y, hy⟩ := join_name_shape _ _ hj
              constructor
              · show pyStrip n ≠ ""
                rw [hy]
                exact pyStrip_stable_ne y (hy ▸ hguard.1)
              · left
                show pyUpper k ≠ ""
                apply pyUpper_ne_empty
                unfold pyor at hkt
                by_cases h2 : jtruthy (role_to_text_and_code r).2 = true
                · rw [if_pos h2] at hkt
                  exact jtruthy_str_ne k (hkt ▸ h2)
                · rw [if_neg h2] at hkt
                  rcases hguard.2 with h1 | h1
                  · exact jtruthy_str_ne k (hkt ▸ h1)
                  · exact absurd h1 h2
            · exact absurd h (by simp)
          · exact absurd h (by simp)
        · exact absurd h (by simp)
  | null => exact absurd h (by simp [add_from_r])
  | bool b => exact absurd h (by simp [add_from_r])
  | num m => exact absurd h (by simp [add_from_r])
  | str s => exact absurd h (by simp [add_from_r])
  | arr xs => exact absurd h (by simp [add_from_r])

theorem addList_good (l : List JSON) (out : List RoleRecord) (h : addList l = .ok out) :
    ∀ r ∈ out, GoodRec r := by
  induction l generalizing out with
  | nil =>
    simp only [addList, Except.ok.injEq] at h
    subst h
    intro r hr
    exact absurd hr (List.not_mem_nil r)
  | cons x xs ih =>
    simp only [addList] at h
    split at h
    · exact absurd h (by simp)
    · rename_i o hx
      split at h
      · exact absurd h (by simp)
      · rename_i t ht
        simp only [Except.ok.injEq] at h
        subst h
        intro r hr
        cases o with
        | some rec =>
          rcases List.mem_cons.mp hr with h1 | h1
          · exact h1 ▸ add_from_r_good x rec hx
          · exact ih t ht r h1
        | none => exact ih t ht r hr

theorem rollerOf_good (g : JSON) (out : List RoleRecord) (h : rollerOf g = .ok out) :
    ∀ r ∈ out, GoodRec r := by
  cases g with
  | obj gf =>
    simp only [rollerOf] at h
    split at h
    · split at h
      · exact addList_good _ _ h
      · exact absurd h (by simp)
    · simp only [Except.ok.injEq] at h
      subst h
      intro r hr
      exact absurd hr (List.not_mem_nil r)
  | null => exact absurd h (by simp [rollerOf])
  | bool b => exact absurd h (by simp [rollerOf])
  | num m => exact absurd h (by simp [rollerOf])
  | str s => exact absurd h (by simp [rollerOf])
  | arr xs => exact absurd h (by simp [rollerOf])

theorem groupsLoop_good (l : List JSON) (out : List RoleRecord) (h : groupsLoop l = .ok out) :
    ∀ r ∈ out, GoodRec r := by
  induction l generalizing out with
  | nil =>
    simp only [groupsLoop, Except.ok.injEq] at h
    subst h
    intro r hr
    exact absurd hr (List.not_mem_nil r)
  | cons g gs ih =>
    simp only [groupsLoop] at h
    split at h
    · exact absurd h (by simp)
    · rename_i a ha
      split at h
      · exact absurd h (by simp)
      · rename_i b hb
        simp only [Except.ok.injEq] at h
        subst h
        intro r hr
        rcases List.mem_append.mp hr with h1 | h1
        · exact rollerOf_good g a ha r h1
        · exact ih b hb r h1

theorem step1_good (p : JSON) (out : List RoleRecord) (h : step1 p = .ok out) :
    ∀ r ∈ out, GoodRec r := by
  cases p with
  | obj fs =>
    simp only [step1] at h
    split at h
    · split at h
      · split at h
        · exact groupsLoop_good _ _ h
        · exact absurd h (by simp)
      · simp only [Except.ok.injEq] at h
        subst h
        intro r hr
        exact absurd hr (List.not_mem_nil r)
    · simp only [Except.ok.injEq] at h
      subst h
      intro r hr
      exact absurd hr (List.not_mem_nil r)
  | null => simp only [step1, Except.ok.injEq] at h; subst h; intro r hr; exact absurd hr (List.not_mem_nil r)
  | bool b => simp only [step1, Except.ok.injEq] at h; subst h; intro r hr; exact absurd hr (List.not_mem_nil r)
  | num m => simp only [step1, Except.ok.injEq] at h; subst h; intro r hr; exact absurd hr (List.not_mem_nil r)
  | str s => simp only [step1, Except.ok.injEq] at h; subst h; intro r hr; exact absurd hr (List.not_mem_nil r)
  | arr xs => simp only [step1, Except.ok.injEq] at h; subst h; intro r hr; exact absurd hr (List.not_mem_nil r)

theorem walkSelf_good (fs : List (String × JSON)) (out : List RoleRecord)
    (h : walkSelf fs = .ok out) : ∀ r ∈ out, GoodRec r := by
  simp only [walkSelf] at h
  split at h
  · split at h
    · exact absurd h (by simp)
    · rename_i rec hrec
      simp only [Except.ok.injEq] at h
      subst h
      intro r hr
      rcases List.mem_singleton.mp hr with h1
      exact h1 ▸ add_from_r_good _ rec hrec
    · simp only [Except.ok.injEq] at h
      subst h
      intro r hr
      exact absurd hr (List.not_mem_nil r)
  · simp only [Except.ok.injEq] at h
    subst h
    intro r hr
    exact absurd hr (List.not_mem_nil r)

theorem walk_good (j : JSON) : ∀ out, walk j = .ok out → ∀ r ∈ out, GoodRec r := by
  refine walk.induct
    (fun j => ∀ out, walk j = .ok out → ∀ r ∈ out, GoodRec r)
    (fun xs => ∀ out, walkElems xs = .ok out → ∀ r ∈ out, GoodRec r)
    (fun fs => ∀ out, walkFields fs = .ok out → ∀ r ∈ out, GoodRec r)
    ?_ ?_ ?_ ?_ ?_ ?_ ?_ ?_ ?_ ?_ ?_ ?_ ?_ j
  · intro fs e hws out hw
    simp only [walk, hws] at hw
    exact absurd hw (by simp)
  · intro fs t hws e hwf ih out hw
    simp only [walk, hws, hwf] at hw
    exact absurd hw (by simp)
  · intro fs t hws t2 hwf ih out hw
    simp only [walk, hws, hwf, Except.ok.injEq] at hw
    subst hw
    intro r hr
    rcases List.mem_append.mp hr with h1 | h1
    · exact walkSelf_good fs t hws r h1
    · exact ih t2 hwf r h1
  · intro xs ih out hw
    simp only [walk] at hw
    exact ih out hw
  · intro v h1 h2 out hw
    cases v with
    | obj fs => exact absurd rfl (h1 fs)
    | arr xs => exact absurd rfl (h2 xs)
    | null =>
      simp only [walk, Except.ok.injEq] at hw
      subst hw
      intro r hr
      exact absurd hr (List.not_mem_nil r)
    | bool b =>
      simp only [walk, Except.ok.injEq] at hw
      subst hw
      intro r hr
      exact absurd hr (List.not_mem_nil r)
    | num m =>
      simp only [walk, Except.ok.injEq] at hw
      subst hw
      intro r hr
      exact absurd hr (List.not_mem_nil r)
    | str s =>
      simp only [walk, Except.ok.injEq] at hw
      subst hw
      intro r hr
      exact absurd hr (List.not_mem_nil r)
  · intro out hw
    simp only [walkElems, Except.ok.injEq] at hw
    subst hw
    intro r hr
    exact absurd hr (List.not_mem_nil r)
  · intro v rest e hm ih out hw
    simp only [walkElems, hm] at hw
    exact absurd hw (by simp)
  · intro v rest t hm e hrest ih ihr out hw
    simp only [walkElems, hm, hrest] at hw
    exact absurd hw (by simp)
  · intro v rest t hm t2 hrest ih ihr out hw
    simp only [walkElems, hm, hrest, Except.ok.injEq] at hw
    subst hw
    intro r hr
    rcases List.mem_append.mp hr with h1 | h1
    · cases v with
      | obj fs => exact ih t (by simpa using hm) r h1
      | arr xs => exact ih t (by simpa using hm) r h1
      | null => simp only at hm; cases hm; exact absurd h1 (by simp)
      | bool b => simp only at hm; cases hm; exact absurd h1 (by simp)
      | num m => simp only at hm; cases hm; exact absurd h1 (by simp)
      | str s => simp only at hm; cases hm; exact absurd h1 (by simp)
    · exact ihr t2 hrest r h1
  · intro out hw
    simp only [walkFields, Except.ok.injEq] at hw
    subst hw
    intro r hr
    exact absurd hr (List.not_mem_nil r)
  · intro k v rest e hm ih out hw
    simp only [walkFields, hm] at hw
    exact absurd hw (by simp)
  · intro k v rest t hm e hrest ih ihr out hw
    simp only [walkFields, hm, hrest] at hw
    exact absurd hw (by simp)
  · intro k v rest t hm t2 hrest ih ihr out hw
    simp only [walkFields, hm, hrest, Except.ok.injEq] at hw
    subst hw
    intro r hr
    rcases List.mem_append.mp hr with h1 | h1
    · cases v with
      | obj fs => exact ih t (by simpa using hm) r h1
      | arr xs => exact ih t (by simpa using hm) r h1
      | null => simp only at hm; cases hm; exact absurd h1 (by simp)
      | bool b => simp only at hm; cases hm; exact absurd h1 (by simp)
      | num m => simp only at hm; cases hm; exact absurd h1 (by simp)
      | str s => simp only at hm; cases hm; exact absurd h1 (by simp)
    · exact ihr t2 hrest r h1

theorem collectRows_good (p : JSON) (rows : List RoleRecord)
    (h : collectRows p = .ok rows) : ∀ r ∈ rows, GoodRec r := by
  simp only [collectRows] at h
  split at h
  · exact absurd h (by simp)
  · rename_i a ha
    split at h
    · exact absurd h (by simp)
    · rename_i b hb
      simp only [Except.ok.injEq] at h
      subst h
      intro r hr
      rcases List.mem_append.mp hr with h1 | h1
      · exact step1_good p a ha r h1
      · exact walk_good p b hb r h1

theorem dedupAux_mem (l : List RoleRecord) : ∀ (seen : List RKey) (out : List RoleRecord),
    dedupAux seen l = .ok out → ∀ r ∈ out, r ∈ l := by
  induction l with
  | nil =>
    intro seen out h
    simp only [dedupAux, Except.ok.injEq] at h
    subst h
    intro r hr
    exact absurd hr (List.not_mem_nil r)
  | cons x xs ih =>
    intro seen out h
    simp only [dedupAux] at h
    split at h
    · exact absurd h (by simp)
    · rename_i k hk
      split at h
      · intro r hr
        exact List.mem_cons_of_mem x (ih seen out h r hr)
      · split at h
        · exact absurd h (by simp)
        · rename_i t ht
          simp only [Except.ok.injEq] at h
          subst h
          intro r hr
          rcases List.mem_cons.mp hr with h1 | h1
          · exact h1 ▸ List.mem_cons_self x xs
          · exact List.mem_cons_of_mem x (ih _ t ht r h1)

theorem hkeyEq_symm (a b : HKey) : hkeyEq a b = hkeyEq b a := by
  cases a <;> cases b <;> simp [hkeyEq, beq_iff_eq, eq_comm]

theorem strBeq_symm (a b : String) : (a == b) = (b == a) := by
  by_cases h : a = b
  · rw [h]
  · rw [beq_eq_false_iff_ne.mpr h, beq_eq_false_iff_ne.mpr (Ne.symm h)]

theorem keyEq_symm (a b : RKey) : keyEq a b = keyEq b a := by
  unfold keyEq
  rw [hkeyEq_symm a.2.2.1, hkeyEq_symm a.2.2.2, strBeq_symm a.1, strBeq_symm a.2.1]

/-- Two records whose dedup keys (when both are hashable) differ. -/
def DifferentKey (a b : RoleRecord) : Prop :=
  ∀ ka kb, recKey a = .ok ka → recKey b = .ok kb → keyEq ka kb = false

theorem dedupAux_spec (l : List RoleRecord) : ∀ (seen : List RKey) (out : List RoleRecord),
    dedupAux seen l = .ok out →
    (∀ r ∈ out, ∀ k, recKey r = .ok k → seen.any (fun k2 => keyEq k k2) = false)
    ∧ List.Pairwise DifferentKey out := by
  induction l with
  | nil =>
    intro seen out h
    simp only [dedupAux, Except.ok.injEq] at h
    subst h
    exact ⟨by simp, List.Pairwise.nil⟩
  | cons x xs ih =>
    intro seen out h
    simp only [dedupAux] at h
    split at h
    · exact absurd h (by simp)
    · rename_i k hk
      split at h
      · exact ih seen out h
      · rename_i hnotin
        rw [Bool.not_eq_true] at hnotin
        split at h
        · exact absurd h (by simp)
        · rename_i t ht
          simp only [Except.ok.injEq] at h
          subst h
          obtain ⟨hseen, hpw⟩ := ih (k :: seen) t ht
          constructor
          · intro r hr k2 hk2
            rcases List.mem_cons.mp hr with h1 | h1
            · subst h1
              rw [hk] at hk2
              cases hk2
              exact hnotin
            · have hall := hseen r h1 k2 hk2
              simp only [List.any_cons, Bool.or_eq_false_iff] at hall
              exact hall.2
          · refine List.Pairwise.cons ?_ hpw
            intro b hb ka kb hka hkb
            rw [hk] at hka
            cases hka
            have hall := hseen b hb kb hkb
            simp only [List.any_cons, Bool.or_eq_false_iff] at hall
            rw [keyEq_symm]
            exact hall.1

/-- Modelled from the spec's deduplication step: filter the collected
candidates to unique `(personName, upper(roleCode), startDate, endDate)`
tuples, keeping the first occurrence encountered in traversal order. The
unhashable-key branch mirrors no spec text and is never exercised under the
hypotheses of the theorem relating it to `parse_roles` (the implementation
fails first). -/
def firstOcc (seen : List RKey) : List RoleRecord → List RoleRecord
  | [] => []
  | r :: rest =>
    match recKey r with
    | .ok k =>
      if seen.any (fun k2 => keyEq k k2) then firstOcc seen rest
      else r :: firstOcc (k :: seen) rest
    | .error _ => firstOcc seen rest

theorem dedupAux_eq_firstOcc (l : List RoleRecord) : ∀ (seen : List RKey) (out : List RoleRecord),
    dedupAux seen l = .ok out → out = firstOcc seen l := by
  induction l with
  | nil =>
    intro seen out h
    simp only [dedupAux, Except.ok.injEq] at h
    subst h
    rfl
  | cons x xs ih =>
    intro seen out h
    simp only [dedupAux] at h
    split at h
    · exact absurd h (by simp)
    · rename_i k hk
      simp only [firstOcc, hk]
      split at h
      · rename_i hin
        rw [if_pos hin]
        exact ih seen out h
      · rename_i hnotin
        rw [if_neg hnotin]
        split at h
        · exact absurd h (by simp)
        · rename_i t ht
          simp only [Except.ok.injEq] at h
          subst h
          rw [ih _ t ht]

theorem parse_roles_good (p : JSON) (out : List RoleRecord)
    (h : parse_roles p = .ok out) : ∀ r ∈ out, GoodRec r := by
  cases p with
  | obj fs =>
    simp only [parse_roles] at h
    split at h
    · exact absurd h (by simp)
    · rename_i rows hrows
      intro r hr
      exact collectRows_good _ rows hrows r (dedupAux_mem rows [] out h r hr)
  | arr xs =>
    simp only [parse_roles] at h
    split at h
    · exact absurd h (by simp)
    · rename_i rows hrows
      intro r hr
      exact collectRows_good _ rows hrows r (dedupAux_mem rows [] out h r hr)
  | null =>
    simp only [parse_roles, Except.ok.injEq] at h
    subst h
    intro r hr
    exact absurd hr (List.not_mem_nil r)
  | bool b =>
    simp only [parse_roles, Except.ok.injEq] at h
    subst h
    intro r hr
    exact absurd hr (List.not_mem_nil r)
  | num m =>
    simp only [parse_roles, Except.ok.injEq] at h
    subst h
    intro r hr
    exact absurd hr (List.not_mem_nil r)
  | str s =>
    simp only [parse_roles, Except.ok.injEq] at h
    subst h
    intro r hr
    exact absurd hr (List.not_mem_nil r)

theorem parse_roles_dedup (p : JSON) (rows out : List RoleRecord)
    (hc : collectRows p = .ok rows) (h : parse_roles p = .ok out) :
    out = firstOcc [] rows ∧ List.Pairwise DifferentKey out := by
  cases p with
  | obj fs =>
    simp only [parse_roles, hc] at h
    exact ⟨dedupAux_eq_firstOcc rows [] out h, (dedupAux_spec rows [] out h).2⟩
  | arr xs =>
    simp only [parse_roles, hc] at h
    exact ⟨dedupAux_eq_firstOcc rows [] out h, (dedupAux_spec rows [] out h).2⟩
  | null =>
    rw [show collectRows JSON.null = .ok [] from rfl] at hc
    rw [show parse_roles JSON.null = .ok [] from rfl] at h
    simp only [Except.ok.injEq] at hc h
    subst hc
    subst h
    exact ⟨rfl, List.Pairwise.nil⟩
  | bool b =>
    rw [show collectRows (JSON.bool b) = .ok [] from rfl] at hc
    rw [show parse_roles (JSON.bool b) = .ok [] from rfl] at h
    simp only [Except.ok.injEq] at hc h
    subst hc
    subst h
    exact ⟨rfl, List.Pairwise.nil⟩
  | num m =>
    rw [show collectRows (JSON.num m) = .ok [] from rfl] at hc
    rw [show parse_roles (JSON.num m) = .ok [] from rfl] at h
    simp only [Except.ok.injEq] at hc h
    subst hc
    subst h
    exact ⟨rfl, List.Pairwise.nil⟩
  | str s =>
    rw [show collectRows (JSON.str s) = .ok [] from rfl] at hc
    rw [show parse_roles (JSON.str s) = .ok [] from rfl] at h
    simp only [Except.ok.injEq] at hc h
    subst hc
    subst h
    exact ⟨rfl, List.Pairwise.nil⟩

theorem add_from_r_inv (r : List (String × JSON)) (rec : RoleRecord)
    (h : add_from_r (.obj r) = .ok (some rec)) :
    ∃ t k, pyor (role_to_text_and_code r).1 (role_to_text_and_code r).2 = .str t ∧
      pyor (role_to_text_and_code r).2 (role_to_text_and_code r).1 = .str k ∧
      rec.rolle_tekst = pyUpper t ∧ rec.rolle_kode = pyUpper k ∧
      rec.fradato = pyor (jget r "fradato") (jget r "registrertDato") ∧
      rec.tildato = pyor (jget r "tildato") (jget r "avregistrertDato") ∧
      rec.fratraadt = jget r "fratraadt" := by
  simp only [add_from_r] at h
  split at h
  · exact absurd h (by simp)
  · split at h
    · exact absurd h (by simp)
    · split at h
      · split at h
        · split at h
          · rename_i n hguard t k htk hkt
            simp only [Except.ok.injEq, Option.some.injEq] at h
            subst h
            exact ⟨t, k, htk, hkt, rfl, rfl, rfl, rfl, rfl⟩
          · exact absurd h (by simp)
        · exact absurd h (by simp)
      · exact absurd h (by simp)

theorem add_from_r_reject (r : List (String × JSON)) (o : Option RoleRecord)
    (h : add_from_r (.obj r) = .ok o)
    (h1 : jtruthy (role_to_text_and_code r).1 = false)
    (h2 : jtruthy (role_to_text_and_code r).2 = false) : o = none := by
  simp only [add_from_r] at h
  split at h
  · exact absurd h (by simp)
  · split at h
    · exact absurd h (by simp)
    · split at h
      · split at h
        · rename_i n hguard
          rcases hguard.2 with hh | hh
          · rw [h1] at hh
            exact absurd hh (by simp)
          · rw [h2] at hh
            exact absurd hh (by simp)
        · simp only [Except.ok.injEq] at h
          exact h.symm
      · simp only [Except.ok.injEq] at h
        exact h.symm

/-! ### Concrete documents and records used by the claim theorems -/

/-- A payload on which the Python source raises `AttributeError` inside
`add_from_r` (`(1).get("navn")`): `{"person": 1, "type": "X"}`. -/
def inC1 : JSON := .obj [("person", .num 1), ("type", .str "X")]

/-- A payload whose record is reachable both through the structured
`rollegrupper` pass and through the recursive walk, producing a duplicate
candidate before deduplication. -/
def inC2 : JSON :=
  .obj [("rollegrupper", .arr [.obj [("roller",
    .arr [.obj [("navn", .str "Kari Nordmann"), ("type", .str "LEDE")]])]])]

/-- The single record extracted from `inC2`. -/
def recC2 : RoleRecord := ⟨"Kari Nordmann", "LEDE", "LEDE", .null, .null, .null⟩

/-- A payload whose record carries a non-boolean truthy `fratraadt` value. -/
def inC3 : JSON := .obj [("navn", .str "A"), ("type", .str "X"), ("fratraadt", .str "x")]

/-- The record extracted from `inC3`: resigned flag is the string `"x"`. -/
def recC3 : RoleRecord := ⟨"A", "X", "X", .null, .null, .str "x"⟩

/-- Spec scenario 1: `{"roleGroups":[{"roles":[{"navn":"Kari Nordmann",
"type":"STYRELEDER","fradato":"2019-01-01"}]}]}`. -/
def inC5 : JSON :=
  .obj [("roleGroups", .arr [.obj [("roles", .arr [.obj
    [("navn", .str "Kari Nordmann"), ("type", .str "STYRELEDER"),
     ("fradato", .str "2019-01-01")]])]])]

/-- The single record extracted from `inC5`. -/
def recC5 : RoleRecord :=
  ⟨"Kari Nordmann", "STYRELEDER", "STYRELEDER", .str "2019-01-01", .null, .null⟩

/-- Spec scenario 3: `{"person":{"navn":{"fornavn":"Ola","etternavn":"Hansen"}},
"rolle":"DAGL","tildato":"2021-06-01"}`. -/
def inC6 : JSON :=
  .obj [("person", .obj [("navn", .obj [("fornavn", .str "Ola"),
    ("etternavn", .str "Hansen")])]),
   ("rolle", .str "DAGL"), ("tildato", .str "2021-06-01")]

/-- The single record extracted from `inC6`. -/
def recC6 : RoleRecord := ⟨"Ola Hansen", "DAGL", "DAGL", .null, .str "2021-06-01", .null⟩

/-- A payload with both a nested person name and a top-level name field. -/
def inC6b : JSON :=
  .obj [("person", .obj [("navn", .str "Nested Name")]), ("navn", .str "Top Name"),
   ("rolle", .str "DAGL")]

/-- The record extracted from `inC6b`: the nested person name wins. -/
def recC6b : RoleRecord := ⟨"Nested Name", "DAGL", "DAGL", .null, .null, .null⟩

/-- A candidate object whose role is a dict with only a description. -/
def rC8 : List (String × JSON) :=
  [("navn", .str "A"), ("rolle", .obj [("beskrivelse", .str "Daglig leder")])]

/-- The record built from `rC8`: the code falls back to the description. -/
def recC8 : RoleRecord :=
  ⟨"A", "DAGLIG LEDER", "DAGLIG LEDER", .null, .null, .null⟩

/-- A candidate object exercising both date fallbacks and the resigned flag. -/
def rC9 : List (String × JSON) :=
  [("navn", .str "A"), ("type", .str "X"), ("registrertDato", .str "2020-01-02"),
   ("avregistrertDato", .str "2022-03-04"), ("fratraadt", .bool true)]

/-- The record built from `rC9`. -/
def recC9 : RoleRecord :=
  ⟨"A", "X", "X", .str "2020-01-02", .str "2022-03-04", .bool true⟩

/-- A candidate object with a lower-case plain-string role. -/
def rC10 : List (String × JSON) := [("navn", .str "B"), ("rolle", .str "dagl")]

/-- The record built from `rC10`: role text upper-cased. -/
def recC10 : RoleRecord := ⟨"B", "DAGL", "DAGL", .null, .null, .null⟩

/-! ### Claim theorems -/

/-- C1: the claim says `parse_roles` never raises on any JSON-like input and
degrades to an empty result; the code violates this. On the document
`{"person": 1, "type": "X"}` the recursive walk finds the role-ish key
`"type"`, and `add_from_r` evaluates `(r.get("person") or {}).get("navn")`
on the integer `1`, raising `AttributeError` — modelled here as the
extraction failing instead of returning a (possibly empty) row list. -/
theorem claim_C1_totality_fails_on_bad_person :
    parse_roles inC1 = .error "AttributeError: object has no attribute get" := rfl

/-- C2: on every document on which extraction succeeds, the output is exactly
the first-occurrence filter of the collected candidate rows by the
`(navn, rolle_kode, fradato, tildato)` tuple, and no two output records have
Python-equal dedup tuples. -/
theorem claim_C2_dedup_first_occurrence (p : JSON) (rows out : List RoleRecord)
    (hc : collectRows p = .ok rows) (h : parse_roles p = .ok out) :
    out = firstOcc [] rows ∧ List.Pairwise DifferentKey out :=
  parse_roles_dedup p rows out hc h

/-- Witness for C2 at `inC2`: the candidate row list contains the same record
twice (once from the structured pass, once from the walk) and the output keeps
exactly the first copy. -/
theorem claim_C2_dedup_first_occurrence_witness :
    [recC2] = firstOcc [] [recC2, recC2] ∧ List.Pairwise DifferentKey [recC2] :=
  claim_C2_dedup_first_occurrence inC2 [recC2, recC2] [recC2] rfl rfl

/-- C3 counterexample: the claim's `iff` (`active ↔ end date absent/empty ∧
resigned flag not true`) fails on the record produced from
`{"navn":"A","type":"X","fratraadt":"x"}`: its end date is absent and its
resigned flag is the string `"x"` (not `true`), yet `is_now_active` is
`false`, because the source requires `fratraadt in (None, False)`. -/
theorem claim_C3_counterexample :
    parse_roles inC3 = .ok [recC3] ∧
    ¬ (is_now_active recC3 = true ↔
        ((recC3.tildato = JSON.null ∨ recC3.tildato = JSON.str "") ∧
         recC3.fratraadt ≠ JSON.bool true)) := by
  refine ⟨rfl, ?_⟩
  intro hiff
  have hact : is_now_active recC3 = true :=
    hiff.mpr ⟨Or.inl rfl, fun hc => by cases hc⟩
  rw [show is_now_active recC3 = false from rfl] at hact
  exact Bool.false_ne_true hact

/-- C3 amended: `is_now_active` returns `true` iff the end date (`tildato`)
is absent/None or the empty string, and the resigned flag (`fratraadt`)
compares equal to Python `None` or `False` — that is, it is `None`, `False`,
or `0`. For records whose flag is absent or boolean this coincides with the
original "is not true" reading. -/
theorem claim_C3_amended_is_now_active (r : RoleRecord) :
    is_now_active r = true ↔
      ((r.tildato = JSON.null ∨ r.tildato = JSON.str "") ∧
       (r.fratraadt = JSON.null ∨ r.fratraadt = JSON.bool false ∨
        r.fratraadt = JSON.num 0)) := by
  obtain ⟨navn, rt, rk, fd, td, fr⟩ := r
  simp only [is_now_active]
  cases td <;> cases fr <;>
    simp [eqNoneOrEmpty, eqNoneOrFalse, String.isEmpty_iff, Bool.not_eq_true']

/-- C4: every record in a successful `parse_roles` output has a person name
that is non-empty after stripping, and at least one of role code / role text
non-empty. -/
theorem claim_C4_emission_invariant (p : JSON) (out : List RoleRecord)
    (h : parse_roles p = .ok out) :
    ∀ r ∈ out, pyStrip r.navn ≠ "" ∧ (r.rolle_kode ≠ "" ∨ r.rolle_tekst ≠ "") :=
  fun r hr => parse_roles_good p out h r hr

/-- Witness for C4 at the spec's scenario-1 document. -/
theorem claim_C4_emission_invariant_witness :
    pyStrip recC5.navn ≠ "" ∧ (recC5.rolle_kode ≠ "" ∨ recC5.rolle_tekst ≠ "") :=
  claim_C4_emission_invariant inC5 [recC5] rfl recC5 (List.mem_singleton.mpr rfl)

/-- C5: on `{"roleGroups":[{"roles":[{"navn":"Kari Nordmann",
"type":"STYRELEDER","fradato":"2019-01-01"}]}]}` the extractor returns
exactly one record with the stated name, role code, start date, absent end
date, and it is classified active. (The English `roleGroups`/`roles` keys are
not the structured container the code looks for, but the recursive walk finds
the inner object through its `"type"` key.) -/
theorem claim_C5_scenario_one :
    parse_roles inC5 = .ok [recC5] ∧
    recC5.navn = "Kari Nordmann" ∧ recC5.rolle_kode = "STYRELEDER" ∧
    recC5.fradato = JSON.str "2019-01-01" ∧ recC5.tildato = JSON.null ∧
    is_now_active recC5 = true :=
  ⟨rfl, rfl, rfl, rfl, rfl, rfl⟩

/-- C6: on `{"person":{"navn":{"fornavn":"Ola","etternavn":"Hansen"}},
"rolle":"DAGL","tildato":"2021-06-01"}` the extractor returns exactly one
record named "Ola Hansen" (nested name parts joined with single spaces), role
code "DAGL", end date "2021-06-01", classified inactive; and on a document
with both a nested person name and a top-level name, the nested one wins. -/
theorem claim_C6_scenario_three :
    parse_roles inC6 = .ok [recC6] ∧
    recC6.navn = "Ola Hansen" ∧ recC6.rolle_kode = "DAGL" ∧
    recC6.tildato = JSON.str "2021-06-01" ∧ is_now_active recC6 = false ∧
    parse_roles inC6b = .ok [recC6b] ∧ recC6b.navn = "Nested Name" :=
  ⟨rfl, rfl, rfl, rfl, rfl, rfl, rfl⟩

/-- C7: `parse_roles` on `null` and on `{"foo":"bar"}` returns the empty
sequence, with no error signalled. -/
theorem claim_C7_null_and_foreign_object :
    parse_roles JSON.null = .ok [] ∧
    parse_roles (JSON.obj [("foo", JSON.str "bar")]) = .ok [] :=
  ⟨rfl, rfl⟩

/-- C8: role resolution. For a candidate object `r`: (1) a plain-string raw
role becomes both the resolved text and the resolved code; (2) for a dict raw
role, the description is preferred for the text and the code field for the
code, and the text falls back to the code when the description is falsy;
(3) at the record level, the code falls back to the (string) text when the
resolved code is empty; (4) if both resolved text and code are falsy, the
candidate is rejected whenever `add_from_r` returns at all. -/
theorem claim_C8_role_resolution (r : List (String × JSON)) :
    (∀ s, pyor (jget r "rolle") (pyor (jget r "type") (jget r "rolletype")) = .str s →
        role_to_text_and_code r = (.str s, .str s)) ∧
    (∀ d, pyor (jget r "rolle") (pyor (jget r "type") (jget r "rolletype")) = .obj d →
        (jtruthy (jget d "beskrivelse") = true →
          (role_to_text_and_code r).1 = jget d "beskrivelse") ∧
        (jtruthy (jget d "beskrivelse") = false → jtruthy (jget d "kode") = true →
          (role_to_text_and_code r).1 = jget d "kode") ∧
        (jtruthy (jget d "kode") = true →
          (role_to_text_and_code r).2 = jget d "kode")) ∧
    (∀ rec, add_from_r (.obj r) = .ok (some rec) →
        jtruthy (role_to_text_and_code r).2 = false →
        ∀ t, (role_to_text_and_code r).1 = .str t → rec.rolle_kode = pyUpper t) ∧
    (∀ o, add_from_r (.obj r) = .ok o →
        jtruthy (role_to_text_and_code r).1 = false →
        jtruthy (role_to_text_and_code r).2 = false → o = none) := by
  refine ⟨?_, ?_, ?_, ?_⟩
  · intro s hs
    simp only [role_to_text_and_code, hs]
  · intro d hd
    refine ⟨?_, ?_, ?_⟩
    · intro hb
      simp only [role_to_text_and_code, hd]
      rw [pyor, if_pos hb]
    · intro hb hk
      simp only [role_to_text_and_code, hd]
      rw [pyor, if_neg (by rw [hb]; exact Bool.false_ne_true), pyor, if_pos hk]
    · intro hk
      simp only [role_to_text_and_code, hd]
      rw [pyor, if_pos hk]
  · intro rec hrec hfalse t ht
    obtain ⟨t2, k2, _, hkt, _, hkode, _⟩ := add_from_r_inv r rec hrec
    rw [pyor, if_neg (by rw [hfalse]; exact Bool.false_ne_true), ht] at hkt
    cases hkt
    exact hkode
  · intro o ho h1 h2
    exact add_from_r_reject r o ho h1 h2

/-- Witness for C8 at `rC8` (dict role with only a description): the resolved
text is the description, and the built record's role code falls back to the
upper-cased description. -/
theorem claim_C8_role_resolution_witness :
    (role_to_text_and_code rC8).1 = JSON.str "Daglig leder" ∧
    recC8.rolle_kode = pyUpper "Daglig leder" := by
  have h := claim_C8_role_resolution rC8
  exact ⟨(h.2.1 [("beskrivelse", JSON.str "Daglig leder")] rfl).1 rfl,
         h.2.2.1 recC8 rfl rfl "Daglig leder" rfl⟩

/-- C9: in every record built by `add_from_r`, the start date is the
`fradato` field with `registrertDato` as fallback, the end date is the
`tildato` field with `avregistrertDato` as fallback, and the explicit
`fratraadt` value is carried through unchanged. -/
theorem claim_C9_date_resolution (r : List (String × JSON)) (rec : RoleRecord)
    (h : add_from_r (.obj r) = .ok (some rec)) :
    rec.fradato = pyor (jget r "fradato") (jget r "registrertDato") ∧
    rec.tildato = pyor (jget r "tildato") (jget r "avregistrertDato") ∧
    rec.fratraadt = jget r "fratraadt" := by
  obtain ⟨t, k, _, _, _, _, h5, h6, h7⟩ := add_from_r_inv r rec h
  exact ⟨h5, h6, h7⟩

/-- Witness for C9 at `rC9`: both fallbacks fire and the resigned flag is
carried through. -/
theorem claim_C9_date_resolution_witness :
    recC9.fradato = pyor (jget rC9 "fradato") (jget rC9 "registrertDato") ∧
    recC9.tildato = pyor (jget rC9 "tildato") (jget rC9 "avregistrertDato") ∧
    recC9.fratraadt = jget rC9 "fratraadt" :=
  claim_C9_date_resolution rC9 recC9 rfl

/-- C10: the role text stored in a record is the upper-casing of the resolved
text (with fallback to the code when the text is falsy), exactly like the
role code — the output text is normalized, not a raw human-readable label. -/
theorem claim_C10_role_text_uppercased (r : List (String × JSON)) (rec : RoleRecord)
    (t : String) (h : add_from_r (.obj r) = .ok (some rec))
    (ht : pyor (role_to_text_and_code r).1 (role_to_text_and_code r).2 = .str t) :
    rec.rolle_tekst = pyUpper t := by
  obtain ⟨t2, k2, ht2, _, htekst, _⟩ := add_from_r_inv r rec h
  rw [ht] at ht2
  cases ht2
  exact htekst

/-- Witness for C10 at `rC10`: the lower-case role string `"dagl"` is stored
upper-cased in the record's role text. -/
theorem claim_C10_role_text_uppercased_witness :
    recC10.rolle_tekst = pyUpper "dagl" :=
  claim_C10_role_text_uppercased rC10 recC10 "dagl" rfl rfl
